import Mathlib

/-!
Verification of the transcript-processing core of a YouTube MCP server.

The embedding models the TypeScript source:
- `src/youtube-service.ts` — class `YouTubeService`: `getTranscript` (with cue
  cache), `processTranscript`, `filterByTimeRange`, `filterBySearchText`,
  `segmentTranscript`, `formatTranscript`, `formatTimestamp`,
  `generateTranscriptCacheKey`.
- `src/index.ts` — the `enhanced-transcript` request handler: its zod input
  schema, the per-video loop with error isolation, and its own inline
  time-range / search / segmentation / formatting implementations.

JavaScript numbers are modelled as `ℚ` (exact rationals; the source only
adds, multiplies and divides by constants, so ℚ mirrors the comparisons the
code performs). JS arrays are `List`, objects are structures, `undefined`
fields are `Option`, thrown errors are `Except`. JS truthiness tests on
numbers (`if (end)`, `x || d`) are modelled as `= 0` tests, on strings as
`= ""` tests, and on objects as `Option` matches.
-/

/-- One caption cue, `TranscriptSegment` in `types/youtube-types.ts`:
`text`, `duration` (ms), `offset` (ms). The optional `videoId` tag added for
multi-video combination is not modelled (no claim depends on it). -/
structure Cue where
  text : String
  duration : ℚ
  offset : ℚ
deriving DecidableEq, Inhabited

/-- Model of `TimeRange` in `types/youtube-types.ts`: optional `start` / `end` in
seconds. The source field `end` is a reserved word in Lean and is renamed
`endTime`. -/
structure TimeRange where
  start : Option ℚ
  endTime : Option ℚ
deriving DecidableEq, Inhabited

/-- Model of `YouTubeService.filterByTimeRange` (youtube-service.ts:220-236).
`const { start = 0, end } = timeRange` defaults `start` to `0`; the body
tests `if (end)`, a JS truthiness test, so `end = 0` (falsy) behaves exactly
like an absent `end`. -/
def filterByTimeRange (segments : List Cue) (timeRange : TimeRange) : List Cue :=
  segments.filter fun segment =>
    let start := timeRange.start.getD 0
    let segmentStart := segment.offset / 1000
    let segmentEnd := (segment.offset + segment.duration) / 1000
    match timeRange.endTime with
    | some e => if e = 0 then decide (segmentStart ≥ start)
                else decide (segmentStart ≥ start ∧ segmentEnd ≤ e)
    | none => decide (segmentStart ≥ start)

/-- The inline time-range filter of the `enhanced-transcript` handler
(index.ts:723-738). Each bound is applied iff the field is `!== undefined`
(so `end = 0` IS honoured here), and the whole filter is skipped when both
are absent. Comparisons are done in milliseconds (`start * 1000`). -/
def inlineTimeFilter (captions : List Cue) (t : TimeRange) : List Cue :=
  match t.start, t.endTime with
  | none, none => captions
  | _, _ =>
    captions.filter fun caption =>
      let afterStart := match t.start with
        | some s => decide (caption.offset ≥ s * 1000)
        | none => true
      let beforeEnd := match t.endTime with
        | some e => decide (caption.offset + caption.duration ≤ e * 1000)
        | none => true
      afterStart && beforeEnd

/-- JS `String.prototype.toLowerCase()`, modelled per character (ASCII case
mapping; the claims only involve ASCII text). Built from the char list so
that it evaluates inside the kernel. -/
def jsToLower (s : String) : String :=
  ⟨s.data.map Char.toLower⟩

/-- JS `String.prototype.trim()`: strip leading and trailing whitespace. -/
def jsTrim (s : String) : String :=
  ⟨((s.data.dropWhile Char.isWhitespace).reverse.dropWhile Char.isWhitespace).reverse⟩

/-- JS `haystack.includes(needle)`: substring containment, i.e. the needle's
characters occur contiguously inside the haystack's characters. -/
def jsIncludes (haystack needle : String) : Bool :=
  decide (needle.data <:+: haystack.data)

/-- Model of `SearchOptions` in `types/youtube-types.ts`: `query`, optional
`caseSensitive`, optional `contextLines`. -/
structure SearchOptions where
  query : String
  caseSensitive : Option Bool
  contextLines : Option Nat
deriving DecidableEq, Inhabited

/-- The per-cue match test of `filterBySearchText` (youtube-service.ts:251-258)
and of the handler's inline search (index.ts:752-759): case-fold both cue
text and query unless `caseSensitive`, then substring containment. -/
def cueMatches (caseSensitive : Bool) (query : String) (segment : Cue) : Bool :=
  let text := if caseSensitive then segment.text else jsToLower segment.text
  let searchText := if caseSensitive then query else jsToLower query
  jsIncludes text searchText

/-- The `matchedIndices` / `matchIndices` accumulation loop (service and
handler alike): the indices, in ascending order, of the cues whose text
matches the query. -/
def matchedIndices (segments : List Cue) (caseSensitive : Bool) (query : String) : List Nat :=
  (List.range segments.length).filter fun i =>
    cueMatches caseSensitive query (segments.getD i default)

/-- The indices inserted for one match `i` by the context loop of
`filterBySearchText` (youtube-service.ts:266-279): `i` itself, then for each
`t + 1` in `1..contextLines` the index `i - (t+1)` when it stays `≥ 0` and
`i + (t+1)` when it stays `< n`. -/
def ctxIndices (n k i : Nat) : Finset ℕ :=
  insert i ((Finset.range k).biUnion fun t =>
    (if t + 1 ≤ i then {i - (t + 1)} else ∅) ∪ (if i + (t + 1) < n then {i + (t + 1)} else ∅))

/-- The `indicesWithContext` JS `Set`, built by iterating over all matched
indices (youtube-service.ts:266-279). -/
def indicesWithContext (n k : Nat) (matched : List Nat) : Finset ℕ :=
  matched.foldl (fun s i => s ∪ ctxIndices n k i) ∅

/-- Model of `YouTubeService.filterBySearchText` (youtube-service.ts:238-285).
`const { query, caseSensitive = false, contextLines = 0 } = search`; the
guard `if (!query || query.trim() === '')` returns the input UNCHANGED for
empty or whitespace-only queries; zero matches yield `[]`; otherwise the
context-index set is materialised with `Array.from(set).sort(asc).map(...)`,
modelled by `Finset.sort` of the set. -/
def filterBySearchText (segments : List Cue) (search : SearchOptions) : List Cue :=
  let query := search.query
  let caseSensitive := search.caseSensitive.getD false
  let contextLines := search.contextLines.getD 0
  if query = "" ∨ jsTrim query = "" then segments
  else
    let matched := matchedIndices segments caseSensitive query
    if matched = [] then []
    else ((indicesWithContext segments.length contextLines matched).sort (· ≤ ·)).map
      fun i => segments.getD i default

/-- Claim C6's description of the search output, written from the claim's
words: the cues whose indices lie in the union over all match indices `i` of
the clamped ranges `[i - contextLines, i + contextLines]`, each index once,
ascending. -/
def searchUnionSpec (segments : List Cue) (search : SearchOptions) : List Cue :=
  let caseSensitive := search.caseSensitive.getD false
  let k := search.contextLines.getD 0
  let matched := matchedIndices segments caseSensitive search.query
  ((List.range segments.length).filter fun j =>
      matched.any fun i => decide (i ≤ j + k ∧ j ≤ i + k)).map
    fun j => segments.getD j default

/-- Segmentation method, the TS union `'equal' | 'smart'`. -/
inductive SegMethod where
  | equal
  | smart
deriving DecidableEq, Inhabited

/-- The `segment` member of `TranscriptOptions` in `types/youtube-types.ts`. -/
structure SegmentOptions where
  method : SegMethod
  count : Nat
deriving DecidableEq, Inhabited

/-- The slicing loop of the equal branch of `segmentTranscript`
(youtube-service.ts:299-306): `for (i = 0; i < length; i += size)
result.push(slice(i, i + size))`. -/
def chunkList (size : Nat) : List Cue → List (List Cue)
  | [] => []
  | x :: xs =>
    if size = 0 then []
    else ((x :: xs).take size) :: chunkList size ((x :: xs).drop size)
termination_by l => l.length
decreasing_by
  simp only [List.length_drop, List.length_cons]
  omega

/-- One step of the smart branch's `forEach` in `segmentTranscript`
(youtube-service.ts:318-327): push the cue onto the current group, add its
duration, and close the group when the accumulated duration reaches
`durationPerSegment` while fewer than `count - 1` groups exist. State is
`(result, currentSegment, currentDuration)`. -/
def smartStep (durationPerSegment : ℚ) (count : Nat)
    (st : List (List Cue) × List Cue × ℚ) (segment : Cue) :
    List (List Cue) × List Cue × ℚ :=
  let current := st.2.1 ++ [segment]
  let currentDuration := st.2.2 + segment.duration
  if currentDuration ≥ durationPerSegment ∧ st.1.length < count - 1 then
    (st.1 ++ [current], [], 0)
  else (st.1, current, currentDuration)

/-- The smart branch of `YouTubeService.segmentTranscript`
(youtube-service.ts:307-333), before the final `flat()`: duration-based
grouping with the final group absorbing the leftovers. -/
def smartChunks (segments : List Cue) (count : Nat) : List (List Cue) :=
  let totalDuration := segments.foldl (fun sum segment => sum + segment.duration) 0
  let durationPerSegment := totalDuration / (count : ℚ)
  let st := segments.foldl (smartStep durationPerSegment count) ([], [], 0)
  if st.2.1 = [] then st.1 else st.1 ++ [st.2.1]

/-- Model of `YouTubeService.segmentTranscript` (youtube-service.ts:287-335). Guard:
`count <= 1 || segments.length <= count` returns the input unchanged. The
equal branch slices `Math.ceil(n / count)` cues per chunk (`(n + count - 1)
/ count` in exact arithmetic) and flattens; the smart branch groups by
accumulated duration and flattens. Both branches return a FLAT sequence. -/
def segmentTranscript (segments : List Cue) (segmentOptions : SegmentOptions) : List Cue :=
  if segmentOptions.count ≤ 1 ∨ segments.length ≤ segmentOptions.count then segments
  else
    match segmentOptions.method with
    | SegMethod.equal =>
      (chunkList ((segments.length + segmentOptions.count - 1) / segmentOptions.count) segments).flatten
    | SegMethod.smart => (smartChunks segments segmentOptions.count).flatten

/-- Claim C1's keep-predicate, written from the claim's words: keep `c` iff
`c.offset/1000 >= a` (with `a` defaulting to 0 when absent) and, whenever
`b` is PRESENT, `(c.offset + c.duration)/1000 <= b`. -/
def c1ClaimKeep (t : TimeRange) (c : Cue) : Bool :=
  decide (c.offset / 1000 ≥ t.start.getD 0) &&
    match t.endTime with
    | some b => decide ((c.offset + c.duration) / 1000 ≤ b)
    | none => true

/-- The amended keep-predicate: as `c1ClaimKeep`, except the end bound only
applies when `b` is present AND nonzero (the code's truthiness test). -/
def c1AmendedKeep (t : TimeRange) (c : Cue) : Bool :=
  decide (c.offset / 1000 ≥ t.start.getD 0) &&
    match t.endTime with
    | some b => if b = 0 then true else decide ((c.offset + c.duration) / 1000 ≤ b)
    | none => true

/-- Concrete one-cue sequence used to refute claims C1 and C10: a cue of
duration 1000 ms starting at offset 0. -/
def cueX : Cue := { text := "x", duration := 1000, offset := 0 }

/-- A time range supplying `end = 0` (present but falsy in JS). -/
def trEndZero : TimeRange := { start := none, endTime := some 0 }

/-- Output format, the TS union `'raw' | 'timestamped' | 'merged'`. -/
inductive Fmt where
  | raw
  | timestamped
  | merged
deriving DecidableEq, Inhabited

/-- JS `Array.prototype.join(sep)`. -/
def joinSep (sep : String) : List String → String
  | [] => ""
  | [x] => x
  | x :: y :: rest => x ++ sep ++ joinSep sep (y :: rest)

/-- JS `String.prototype.padStart(2, '0')`. -/
def padStart2 (s : String) : String :=
  if s.length ≥ 2 then s else if s.length = 1 then "0" ++ s else "00" ++ s

/-- Model of `YouTubeService.formatTimestamp` (youtube-service.ts:384-389) and the
byte-identical helper `formatTime` (index.ts:1005-1010): floor milliseconds
to seconds, render `MM:SS` with both parts zero-padded to two digits. The
JS `Math.floor` / `%` pair is modelled with integer floor division and
euclidean remainder, which agree with JS for the nonnegative offsets of the
data model. -/
def formatTimestamp (milliseconds : ℚ) : String :=
  let totalSeconds : ℤ := ⌊milliseconds / 1000⌋
  let minutes : ℤ := totalSeconds / 60
  let seconds : ℤ := totalSeconds % 60
  padStart2 (toString minutes) ++ ":" ++ padStart2 (toString seconds)

/-- Model of `formatTime` in index.ts (1005-1010), identical to the service's
`formatTimestamp`. -/
def formatTime (milliseconds : ℚ) : String :=
  formatTimestamp milliseconds

/-- Model of `TranscriptOptions` in `types/youtube-types.ts`. -/
structure TranscriptOptions where
  language : Option String
  timeRange : Option TimeRange
  search : Option SearchOptions
  segment : Option SegmentOptions
  format : Option Fmt
  includeMetadata : Option Bool
deriving DecidableEq, Inhabited

/-- The per-video metadata snapshot built by `formatTranscript`
(youtube-service.ts:354-368) from `details.items?.[0]`; `null` items are the
`none`s of the input list. All API fields are optional strings. -/
structure VideoMetadata where
  id : Option String
  title : Option String
  channelId : Option String
  channelTitle : Option String
  publishedAt : Option String
  duration : Option String
  viewCount : Option String
  likeCount : Option String
deriving DecidableEq, Inhabited

/-- Model of `FormattedTranscript` in `types/youtube-types.ts`. -/
structure FormattedTranscript where
  segments : List Cue
  totalSegments : Nat
  duration : ℚ
  format : Fmt
  text : Option String
  metadata : Option (List VideoMetadata)
deriving DecidableEq, Inhabited

/-- Model of `YouTubeService.processTranscript` (youtube-service.ts:192-218): empty
input short-circuits to `[]`; otherwise apply, in order, the time-range
filter, the search filter and segmentation, each only when its option is
present. -/
def processTranscript (segments : List Cue) (options : TranscriptOptions) : List Cue :=
  if segments.length = 0 then []
  else
    let p1 := match options.timeRange with
      | some t => filterByTimeRange segments t
      | none => segments
    let p2 := match options.search with
      | some s => filterBySearchText p1 s
      | none => p1
    match options.segment with
    | some sg => segmentTranscript p2 sg
    | none => p2

/-- Model of `YouTubeService.formatTranscript` (youtube-service.ts:337-382). The
caller passes the per-video metadata snapshots already extracted from each
`videos.list` response (`details.items?.[0]`, `none` when absent); the
`filter(Boolean)` drops the `none`s. `duration` is the cue-duration sum in
seconds; `text` is rendered for the `timestamped` and `merged` formats. -/
def formatTranscript (segments : List Cue) (videoDetails : List (Option VideoMetadata))
    (options : TranscriptOptions) : FormattedTranscript :=
  let format := options.format.getD Fmt.raw
  { segments := segments
    totalSegments := segments.length
    duration := (segments.foldl (fun sum segment => sum + segment.duration) 0) / 1000
    format := format
    text :=
      match format with
      | Fmt.timestamped =>
        some (joinSep "\n" (segments.map fun segment =>
          "[" ++ formatTimestamp segment.offset ++ "] " ++ segment.text))
      | Fmt.merged => some (joinSep " " (segments.map Cue.text))
      | Fmt.raw => none
    metadata :=
      if options.includeMetadata.getD false then some (videoDetails.filterMap id) else none }

/-- Model of `options.language || 'default'` (youtube-service.ts:393, index.ts:968):
JS `||` treats the empty string as absent. -/
def langOrDefault : Option String → String
  | none => "default"
  | some l => if l = "" then "default" else l

/-- Model of `YouTubeService.generateTranscriptCacheKey` (youtube-service.ts:391-396):
`transcript_<videoId>_` followed by `JSON.stringify({ language })`. JSON
string escaping inside the language value is not modelled (no claim uses a
language needing escapes). -/
def generateTranscriptCacheKey (videoId : String) (options : TranscriptOptions) : String :=
  "transcript_" ++ videoId ++ "_\x7b\"language\":\"" ++ langOrDefault options.language ++ "\"\x7d"

/-- The `NodeCache` holding raw transcripts, as a key-value association list.
Entries are modelled as non-expiring: every claim about the cache concerns
behaviour within the TTL window. -/
structure CacheState where
  entries : List (String × List Cue)

/-- Model of `cache.get(key)`: the most recently inserted value for the key. -/
def cacheGet (st : CacheState) (k : String) : Option (List Cue) :=
  (st.entries.find? fun p => decide (p.1 = k)).map Prod.snd

/-- Model of `cache.set(key, value)`: insert-or-replace (lookup sees the newest). -/
def cacheSet (st : CacheState) (k : String) (v : List Cue) : CacheState :=
  ⟨(k, v) :: st.entries⟩

/-- Model of `YouTubeService.getTranscript` (youtube-service.ts:116-154), after the
string-vs-options normalisation of its overloads. `fetch` is the external
caption source (`getSubtitles`): `some cues` on success, `none` when it
throws. On a cache hit the CACHED RAW cues are re-processed; on a miss the
fetched raw cues are stored unprocessed and then processed; a failed fetch
caches nothing and surfaces a `TranscriptError`. The returned `Nat` counts
external caption fetches issued by this call. -/
def getTranscript (fetch : String → Option String → Option (List Cue)) (st : CacheState)
    (videoId : String) (options : TranscriptOptions) :
    Except String (List Cue) × CacheState × Nat :=
  let cacheKey := generateTranscriptCacheKey videoId options
  match cacheGet st cacheKey with
  | some cached => (Except.ok (processTranscript cached options), st, 0)
  | none =>
    match fetch videoId options.language with
    | some captions =>
      (Except.ok (processTranscript captions options), cacheSet st cacheKey captions, 1)
    | none => (Except.error "Failed to fetch transcript", st, 1)

/-- A `Segment` of the `enhanced-transcript` handler (index.ts:686-690):
formatted start/end times plus the captions of the bucket. -/
structure Segment where
  startTime : String
  endTime : String
  captions : List Cue
deriving DecidableEq, Inhabited

/-- The handler's `TranscriptResult` union (index.ts:692): a flat caption
array or `{ segments }`. -/
inductive HandlerResult where
  | flat (captions : List Cue)
  | seg (segments : List Segment)
deriving DecidableEq, Inhabited

/-- The formatted transcript attached to a per-video result entry
(index.ts:914-949): the raw structure, or rendered text. -/
inductive TranscriptOut where
  | rawFlat (captions : List Cue)
  | rawSeg (segments : List Segment)
  | text (s : String)
deriving DecidableEq, Inhabited

/-- JS stable insertion used to model `Array.prototype.sort((a, b) =>
a.offset - b.offset)`; applied only to lists with pairwise distinct offsets
(the handler sorts after deduplicating by offset), where every correct sort
agrees. -/
def insertByOffset (c : Cue) : List Cue → List Cue
  | [] => [c]
  | d :: ds => if c.offset ≤ d.offset then c :: d :: ds else d :: insertByOffset c ds

/-- Sort by ascending `offset`. -/
def sortByOffset (l : List Cue) : List Cue :=
  l.foldr insertByOffset []

/-- The handler's dedup-by-offset loop (index.ts:788-797): keep the first
caption seen for each distinct offset, preserving encounter order. -/
def dedupByOffset (l : List Cue) : List Cue :=
  (l.foldl (fun (acc : List Cue × List ℚ) c =>
    if c.offset ∈ acc.2 then acc else (acc.1 ++ [c], c.offset :: acc.2)) ([], [])).1

/-- The handler's inline search filter (index.ts:742-804), applied when the
query is truthy. `contextLines || 2` maps both an absent and a ZERO
`contextLines` to 2. For each match the slice
`[max 0 (i-k), min (len-1) (i+k)]` is collected; the concatenation is
deduplicated by offset and sorted by offset. Zero matches yield `[]`. The
`isMatch` annotation and the `searchResults` summary attached to the reply
are not modelled (no claim concerns them). -/
def inlineSearchCore (captions : List Cue) (search : SearchOptions) : List Cue :=
  let caseSensitive := search.caseSensitive.getD false
  let contextLines := match search.contextLines with
    | some k => if k = 0 then 2 else k
    | none => 2
  let matchIdx := matchedIndices captions caseSensitive search.query
  if matchIdx = [] then []
  else
    let matchSegments := matchIdx.flatMap fun i =>
      (captions.drop (i - contextLines)).take
        (min (captions.length - 1) (i + contextLines) + 1 - (i - contextLines))
    sortByOffset (dedupByOffset matchSegments)

/-- The `segment.count || 5` / `segment.method || 'equal'` defaults of the
handler (index.ts:808-809). -/
def handlerSegCount : Option Nat → Nat
  | some c => if c = 0 then 5 else c
  | none => 5

/-- The handler's equal segmentation (index.ts:811-841): split the time span
from the first cue's start to the last cue's end into `count` equal windows,
assign each caption to the window containing its start offset, and keep only
the nonempty windows. -/
def inlineEqualSegment (captions : List Cue) (count : Nat) : List Segment :=
  match captions with
  | [] => []
  | c0 :: _ =>
    let lastC := captions.getLastD c0
    let firstOffset := c0.offset
    let lastOffset := lastC.offset + lastC.duration
    let totalDuration := lastOffset - firstOffset
    let segmentDuration := totalDuration / (count : ℚ)
    (List.range count).filterMap fun i =>
      let segmentStart := firstOffset + (i : ℚ) * segmentDuration
      let segmentEnd := segmentStart + segmentDuration
      let segmentCaptions := captions.filter fun c =>
        decide (c.offset ≥ segmentStart) && decide (c.offset < segmentEnd)
      if segmentCaptions = [] then none
      else some ⟨formatTime segmentStart, formatTime segmentEnd, segmentCaptions⟩

/-- The average positive gap between consecutive captions
(index.ts:850-865): gaps `next.offset - (prev.offset + prev.duration)`, only
positive ones counted; 0 when there are none. -/
def avgGap (captions : List Cue) : ℚ :=
  let gaps := (captions.zip captions.tail).map fun p => p.2.offset - (p.1.offset + p.1.duration)
  let positives := gaps.filter fun g => decide (0 < g)
  if positives.length = 0 then 0
  else (positives.foldl (· + ·) 0) / (positives.length : ℚ)

/-- The walk of the handler's smart segmentation (index.ts:871-895). State:
previous caption, pending current group, closed groups, closed-group count.
When the gap before a caption exceeds the pause threshold and the current
group is nonempty, the group is closed; reaching `count` closed groups
executes `break`, DISCARDING the caption being examined and every later one.
Returns (closed groups, pending group). -/
def smartLoop (pause : ℚ) (count : Nat) (prev : Cue) (rest : List Cue)
    (currentSegment : List Cue) (segments : List (List Cue)) (segmentCount : Nat) :
    List (List Cue) × List Cue :=
  match rest with
  | [] => (segments, currentSegment)
  | c :: cs =>
    let gap := c.offset - (prev.offset + prev.duration)
    if gap > pause ∧ currentSegment ≠ [] then
      let segments2 := segments ++ [currentSegment]
      let segmentCount2 := segmentCount + 1
      if segmentCount2 ≥ count then (segments2, [])
      else smartLoop pause count c cs [c] segments2 segmentCount2
    else smartLoop pause count c cs (currentSegment ++ [c]) segments segmentCount

/-- The handler's smart segmentation (index.ts:842-911), as the list of
caption groups: pause threshold `max (3 * avgGap) 1000`, walk with
`smartLoop`, then append the pending group when nonempty. -/
def inlineSmartChunks (captions : List Cue) (count : Nat) : List (List Cue) :=
  match captions with
  | [] => []
  | c0 :: rest =>
    let significantPause := max (avgGap captions * 3) 1000
    let st := smartLoop significantPause count c0 rest [c0] [] 0
    if st.2 = [] then st.1 else st.1 ++ [st.2]

/-- Wrap a caption group in a `Segment` with the formatted times used by the
handler's smart branch (index.ts:878-905). -/
def mkSegment (g : List Cue) : Segment :=
  ⟨formatTime (g.headI).offset,
    formatTime ((g.getLastD default).offset + (g.getLastD default).duration), g⟩

/-- The `segment` filter member of the handler's zod schema
(index.ts:659-662). -/
structure HSegment where
  count : Option Nat
  method : Option SegMethod
deriving DecidableEq, Inhabited

/-- The `filters` object of the handler's zod schema (index.ts:649-663). -/
structure HFilters where
  timeRange : Option TimeRange
  search : Option SearchOptions
  segment : Option HSegment
deriving DecidableEq, Inhabited

/-- Handler segmentation dispatch (index.ts:806-912): applied only when a
segment filter is present and the current sequence is nonempty; the flat
sequence is replaced by `{ segments }` only when at least one segment was
produced. -/
def handlerApplySegment (segment : Option HSegment) (captions : List Cue) : HandlerResult :=
  match segment with
  | none => HandlerResult.flat captions
  | some sg =>
    if captions.length = 0 then HandlerResult.flat captions
    else
      let count := handlerSegCount sg.count
      match sg.method.getD SegMethod.equal with
      | SegMethod.equal =>
        let segments := inlineEqualSegment captions count
        if segments = [] then HandlerResult.flat captions else HandlerResult.seg segments
      | SegMethod.smart =>
        let segments := (inlineSmartChunks captions count).map mkSegment
        if segments = [] then HandlerResult.flat captions else HandlerResult.seg segments

/-- Handler search dispatch: `if (filters?.search?.query)` — a falsy (empty)
query skips the filter entirely (index.ts:742). -/
def handlerApplySearch (search : Option SearchOptions) (captions : List Cue) : List Cue :=
  match search with
  | none => captions
  | some s => if s.query = "" then captions else inlineSearchCore captions s

/-- Handler time-range dispatch (index.ts:724-738). -/
def handlerApplyTime (timeRange : Option TimeRange) (captions : List Cue) : List Cue :=
  match timeRange with
  | none => captions
  | some t => inlineTimeFilter captions t

/-- The handler's filter pipeline over one video's raw transcript
(index.ts:720-912): time range, then search, then segmentation. -/
def handlerPipeline (filters : Option HFilters) (transcriptData : List Cue) : HandlerResult :=
  match filters with
  | none => HandlerResult.flat transcriptData
  | some fs =>
    handlerApplySegment fs.segment
      (handlerApplySearch fs.search (handlerApplyTime fs.timeRange transcriptData))

/-- Handler formatting (index.ts:914-949): flat sequences render as raw,
`[MM:SS] text` lines, or space-joined text; segmented results render with a
`### Segment <start> - <end>` header per segment. -/
def handlerFormat (r : HandlerResult) (format : Fmt) : TranscriptOut :=
  match r with
  | HandlerResult.flat captions =>
    match format with
    | Fmt.raw => TranscriptOut.rawFlat captions
    | Fmt.timestamped =>
      TranscriptOut.text (joinSep "\n" (captions.map fun caption =>
        "[" ++ formatTime caption.offset ++ "] " ++ caption.text))
    | Fmt.merged => TranscriptOut.text (joinSep " " (captions.map Cue.text))
  | HandlerResult.seg segments =>
    match format with
    | Fmt.raw => TranscriptOut.rawSeg segments
    | Fmt.timestamped =>
      TranscriptOut.text (joinSep "\n\n" (segments.map fun segment =>
        "### Segment " ++ segment.startTime ++ " - " ++ segment.endTime ++ "\n\n" ++
          joinSep "\n" (segment.captions.map fun caption =>
            "[" ++ formatTime caption.offset ++ "] " ++ caption.text)))
    | Fmt.merged =>
      TranscriptOut.text (joinSep "\n\n" (segments.map fun segment =>
        "### Segment " ++ segment.startTime ++ " - " ++ segment.endTime ++ "\n\n" ++
          joinSep " " (segment.captions.map Cue.text)))

/-- The snippet fields of one video from `getVideoDetails` that the handler
reads (index.ts:963-967). -/
structure Video where
  title : Option String
  channelTitle : Option String
  publishedAt : Option String
deriving DecidableEq, Inhabited

/-- The metadata object attached to a successful per-video entry
(index.ts:963-975). -/
structure EntryMeta where
  title : Option String
  channelTitle : Option String
  publishedAt : Option String
  language : String
  captionCount : Nat
  filteredCaptionCount : Nat
deriving DecidableEq, Inhabited

/-- One element of the handler's `results` array (index.ts:695-984): either
an error entry `{ videoId, error }` or a success entry with the formatted
transcript and optional metadata. The `search` summary member is not
modelled. -/
structure EntryR where
  videoId : String
  error : Option String
  transcript : Option TranscriptOut
  metadata : Option EntryMeta
deriving DecidableEq, Inhabited

/-- The external collaborators of the handler, per video ID: `getVideoDetails`
(`ok none` = no item, `error` = thrown) and `getTranscript`'s outcome. -/
structure VideoEnv where
  details : String → Except String (Option Video)
  transcript : String → Except String (List Cue)

/-- The non-schema arguments of one handler invocation, with the defaults of
index.ts:668 applied (`format = 'timestamped'`, `includeMetadata = true`). -/
structure HandlerArgs where
  language : Option String
  filters : Option HFilters
  format : Fmt
  includeMetadata : Bool
deriving Inhabited

/-- The no-transcript error message (index.ts:715), with the language suffix
added when `language` is truthy. -/
def noTranscriptMsg (language : Option String) : String :=
  "No transcript available for this video" ++
    match language with
    | some l => if l = "" then "" else " in language: " ++ l
    | none => ""

/-- Cue count of the handler's filtered result (index.ts:970-973). -/
def filteredCount : HandlerResult → Nat
  | HandlerResult.flat captions => captions.length
  | HandlerResult.seg segments => (segments.map fun s => s.captions.length).sum

/-- One iteration of the handler's per-video loop (index.ts:695-984), as a
function of the two external outcomes for that video: the result entry plus
the number of external calls issued (`getVideoDetails` always; `getTranscript`
only when a video item was found — a thrown error from either is caught by
the per-video `try/catch` and becomes an error entry). -/
def processOneVideoCore (details : Except String (Option Video))
    (tdata : Except String (List Cue)) (a : HandlerArgs) (videoId : String) :
    EntryR × Nat :=
  match details with
  | Except.error e =>
    (⟨videoId, some ("Error processing video: " ++ e), none, none⟩, 1)
  | Except.ok none =>
    (⟨videoId, some "Video not found or not accessible", none, none⟩, 1)
  | Except.ok (some video) =>
    match tdata with
    | Except.error e =>
      (⟨videoId, some ("Error processing video: " ++ e), none, none⟩, 2)
    | Except.ok [] =>
      (⟨videoId, some (noTranscriptMsg a.language), none, none⟩, 2)
    | Except.ok transcriptData =>
      let filtered := handlerPipeline a.filters transcriptData
      let formatted := handlerFormat filtered a.format
      let meta :=
        if a.includeMetadata then
          some (⟨video.title, video.channelTitle, video.publishedAt,
            langOrDefault a.language, transcriptData.length, filteredCount filtered⟩ : EntryMeta)
        else none
      (⟨videoId, none, some formatted, meta⟩, 2)

/-- The handler's per-video processing for a given environment. -/
def processOneVideo (env : VideoEnv) (a : HandlerArgs) (videoId : String) : EntryR × Nat :=
  processOneVideoCore (env.details videoId) (env.transcript videoId) a videoId

/-- The handler's `results` array: one entry per requested video ID, in
request order (index.ts:695, `for (const videoId of videoIds)`). -/
def processVideos (ids : List String) (env : VideoEnv) (a : HandlerArgs) : List EntryR :=
  ids.map fun id => (processOneVideo env a id).1

/-- Total number of external calls issued by one handler invocation. -/
def handlerFetchTotal (ids : List String) (env : VideoEnv) (a : HandlerArgs) : Nat :=
  (ids.map fun id => (processOneVideo env a id).2).sum

/-- The raw arguments of one `enhanced-transcript` request
(index.ts:648-667). -/
structure EnhancedRequest where
  videoIds : List String
  filters : Option HFilters
  language : Option String
  format : Option Fmt
  includeMetadata : Option Bool
deriving Inhabited

/-- The zod schema of the `enhanced-transcript` tool (index.ts:648-667):
1-5 video IDs; `timeRange.start`/`timeRange.end` each `≥ 0` when present;
`search.query` nonempty; `contextLines ≤ 5`; `segment.count` in 1..10.
There is NO cross-field check relating `start` and `end`. -/
def validateEnhancedRequest (r : EnhancedRequest) : Bool :=
  decide (1 ≤ r.videoIds.length) && decide (r.videoIds.length ≤ 5) &&
    match r.filters with
    | none => true
    | some fs =>
      (match fs.timeRange with
        | none => true
        | some t =>
          (match t.start with | some s => decide (0 ≤ s) | none => true) &&
            (match t.endTime with | some e => decide (0 ≤ e) | none => true)) &&
      (match fs.search with
        | none => true
        | some s =>
          decide (1 ≤ s.query.length) &&
            match s.contextLines with | some k => decide (k ≤ 5) | none => true) &&
      (match fs.segment with
        | none => true
        | some sg =>
          match sg.count with
          | some c => decide (1 ≤ c) && decide (c ≤ 10)
          | none => true)

/-- Apply the handler's argument defaults (index.ts:668). -/
def toHandlerArgs (r : EnhancedRequest) : HandlerArgs :=
  ⟨r.language, r.filters, r.format.getD Fmt.timestamped, r.includeMetadata.getD true⟩

/-- One `enhanced-transcript` invocation: schema validation (performed by the
MCP SDK against the zod schema BEFORE the handler body runs), then the
per-video loop. Returns the result (or the validation error) and the number
of external calls issued. -/
def enhancedTranscriptRun (r : EnhancedRequest) (env : VideoEnv) :
    Except String (List EntryR) × Nat :=
  if validateEnhancedRequest r then
    (Except.ok (processVideos r.videoIds env (toHandlerArgs r)),
      handlerFetchTotal r.videoIds env (toHandlerArgs r))
  else (Except.error "Invalid request parameters", 0)

/-- A 100 ms cue at a given offset, for concrete evaluations. -/
def mkCue (o : ℚ) : Cue :=
  { text := "t", duration := 100, offset := o }

/-- Nine 100 ms cues whose inter-cue gaps are 100,100,100,100,100,100,2000,
2000 ms: the average positive gap is 575, so the pause threshold is
`max (3 * 575) 1000 = 1725`, exceeded exactly by the two 2000 ms gaps. -/
def cues9 : List Cue :=
  [mkCue 0, mkCue 200, mkCue 400, mkCue 600, mkCue 800, mkCue 1000, mkCue 1200,
    mkCue 3300, mkCue 5400]

/-- A cue whose text contains no space. -/
def cueHello : Cue :=
  { text := "hello", duration := 1000, offset := 0 }

/-- A cue whose text contains a space. -/
def cueAB : Cue :=
  { text := "a b", duration := 1000, offset := 0 }

/-- A cue whose text is a single letter. -/
def cueC : Cue :=
  { text := "c", duration := 1000, offset := 1000 }

/-- A whitespace-only search query (passes the schema's `min(1)`). -/
def wsSearch : SearchOptions :=
  { query := " ", caseSensitive := none, contextLines := none }

/-- A whitespace-only query with zero context lines. -/
def wsCtxSearch : SearchOptions :=
  { query := " ", caseSensitive := none, contextLines := some 0 }

/-- A one-letter query with one context line. -/
def bSearch : SearchOptions :=
  { query := "b", caseSensitive := none, contextLines := some 1 }

/-- A query matching none of the concrete cues. -/
def qSearch : SearchOptions :=
  { query := "q", caseSensitive := none, contextLines := none }

/-- A cue at offset 0 whose text matches nothing below. -/
def cueM0 : Cue :=
  { text := "zero", duration := 1000, offset := 0 }

/-- The one cue matching the query "match". -/
def cueM1 : Cue :=
  { text := "match", duration := 1000, offset := 1000 }

/-- A cue at offset 2000 whose text matches nothing below. -/
def cueM2 : Cue :=
  { text := "two", duration := 1000, offset := 2000 }

/-- A cue at offset 3000 whose text matches nothing below. -/
def cueM3 : Cue :=
  { text := "three", duration := 1000, offset := 3000 }

/-- Four cues with distinct ascending offsets, of which only the second
matches the query "match". -/
def cues4 : List Cue :=
  [cueM0, cueM1, cueM2, cueM3]

/-- A search spec that SUPPLIES `contextLines = 0` (legal under the schema's
`min(0)`). -/
def zeroCtxSearch : SearchOptions :=
  { query := "match", caseSensitive := none, contextLines := some 0 }

/-- A concrete video snapshot. -/
def videoW : Video :=
  { title := some "T", channelTitle := some "C", publishedAt := some "2024-01-01T00:00:00Z" }

/-- A concrete environment: video "b" does not exist, every other ID has a
video and a one-cue transcript. -/
def envW : VideoEnv :=
  { details := fun id => if id = "b" then Except.ok none else Except.ok (some videoW)
    transcript := fun _ => Except.ok [cueX] }

/-- Concrete handler arguments: no filters, raw format, no metadata. -/
def argsW : HandlerArgs :=
  { language := none, filters := none, format := Fmt.raw, includeMetadata := false }

/-- A request whose time range has `start = 10 > end = 5` — malformed in the
claim's sense, yet accepted by the zod schema. -/
def reqBad : EnhancedRequest :=
  { videoIds := ["v"]
    filters := some
      { timeRange := some { start := some 10, endTime := some 5 }
        search := none
        segment := none }
    language := none
    format := some Fmt.raw
    includeMetadata := some false }

/-- A request with an empty search query (schema-rejected). -/
def reqEmptyQ : EnhancedRequest :=
  { videoIds := ["v"]
    filters := some
      { timeRange := none
        search := some { query := "", caseSensitive := none, contextLines := none }
        segment := none }
    language := none
    format := none
    includeMetadata := none }

/-- A caption source that always returns the one-cue transcript. -/
def fetchW : String → Option String → Option (List Cue) :=
  fun _ _ => some [cueX]

/-- The empty cache. -/
def stEmpty : CacheState :=
  ⟨[]⟩

/-- Transcript options selecting language "en" with no filters. -/
def optsEn : TranscriptOptions :=
  { language := some "en", timeRange := none, search := none, segment := none,
    format := none, includeMetadata := none }

/-- Transcript options with language "en" and a time-range filter. -/
def optsEn2 : TranscriptOptions :=
  { language := some "en", timeRange := some { start := some 0, endTime := none },
    search := none, segment := none, format := none, includeMetadata := none }

/-- Transcript options selecting the merged output format. -/
def optsMerged : TranscriptOptions :=
  { language := none, timeRange := none, search := none, segment := none,
    format := some Fmt.merged, includeMetadata := none }

/-- C1, counterexample: with `end = 0` supplied, `filterByTimeRange` keeps a
cue whose `(offset+duration)/1000 = 1 > 0`, while the claim's predicate
(which applies the end bound whenever `b` is present) excludes it. -/
theorem c1_time_filter_counterexample :
    filterByTimeRange [cueX] trEndZero ≠ [cueX].filter (c1ClaimKeep trEndZero) := by
  norm_num [filterByTimeRange, c1ClaimKeep, trEndZero, cueX]

/-- C1 (amended): `filterByTimeRange` keeps exactly the cues `c` with
`c.offset/1000 ≥ a` (`a` defaulting to 0) and, when `b` is present and
nonzero, `(c.offset+c.duration)/1000 ≤ b`; straddling cues are excluded
whole, and the output is a subsequence of the input preserving order. -/
theorem c1_time_filter_amended (S : List Cue) (t : TimeRange) :
    filterByTimeRange S t = S.filter (c1AmendedKeep t) ∧
      (filterByTimeRange S t).Sublist S := by
  refine ⟨?_, List.filter_sublist S⟩
  unfold filterByTimeRange c1AmendedKeep
  apply List.filter_congr
  intro c _
  cases h : t.endTime with
  | none => simp
  | some b =>
    by_cases hb : b = 0 <;> simp [hb, decide_eq_true_eq, and_comm, Bool.and_comm]

/-- C10, counterexample: at `end = 0` the two time-range implementations
disagree — the service filter keeps `cueX` (truthiness ignores `end = 0`),
the handler's inline filter drops it (`offset + duration = 1000 ≰ 0`). -/
theorem c10_time_filters_disagree :
    filterByTimeRange [cueX] trEndZero ≠ inlineTimeFilter [cueX] trEndZero := by
  norm_num [filterByTimeRange, inlineTimeFilter, trEndZero, cueX]

/-- C10 (amended): on cue sequences with nonnegative offsets, the service
filter `filterByTimeRange` and the handler's `inlineTimeFilter` compute the
same output for every time range whose `end` is absent or nonzero; they
disagree when `end = 0` is supplied. -/
theorem c10_time_filters_agree (S : List Cue) (t : TimeRange)
    (hoff : ∀ c ∈ S, 0 ≤ c.offset) (hend : t.endTime ≠ some 0) :
    filterByTimeRange S t = inlineTimeFilter S t := by
  unfold filterByTimeRange inlineTimeFilter
  cases hs : t.start with
  | none =>
    cases he : t.endTime with
    | none =>
      simp only
      rw [List.filter_eq_self]
      intro c hc
      have := hoff c hc
      simp [hs, Option.getD]
      positivity
    | some e =>
      have he0 : e ≠ 0 := by rintro rfl; exact hend he
      simp only
      apply List.filter_congr
      intro c hc
      have h0 : (0 : ℚ) ≤ c.offset := hoff c hc
      have hdiv : (0 : ℚ) ≤ c.offset / 1000 := by positivity
      simp [hs, he, he0, decide_eq_true_eq, hdiv, div_le_iff₀ (show (0:ℚ) < 1000 by norm_num)]
  | some s =>
    cases he : t.endTime with
    | none =>
      simp only
      apply List.filter_congr
      intro c _
      simp [hs, he, decide_eq_true_eq, ge_iff_le,
        le_div_iff₀ (show (0:ℚ) < 1000 by norm_num)]
    | some e =>
      have he0 : e ≠ 0 := by rintro rfl; exact hend he
      simp only
      apply List.filter_congr
      intro c _
      simp [hs, he, he0, decide_eq_true_eq, ge_iff_le,
        le_div_iff₀ (show (0:ℚ) < 1000 by norm_num),
        div_le_iff₀ (show (0:ℚ) < 1000 by norm_num), and_comm, Bool.and_comm]

/-- Witness for `c10_time_filters_agree` at a concrete input. -/
theorem c10_time_filters_agree_witness :
    (∀ c ∈ [cueX], 0 ≤ c.offset) ∧
      filterByTimeRange [cueX] { start := some 0, endTime := some 2 } =
        inlineTimeFilter [cueX] { start := some 0, endTime := some 2 } :=
  ⟨by decide, c10_time_filters_agree [cueX] { start := some 0, endTime := some 2 }
    (by decide) (by decide)⟩

/-- Membership in a conditional singleton. -/
theorem mem_ite_singleton (c : Prop) [Decidable c] (x j : ℕ) :
    (j ∈ if c then ({x} : Finset ℕ) else ∅) ↔ c ∧ j = x := by
  by_cases h : c <;> simp [h]

/-- For a match index `i < n`, the context set is exactly the indices `j < n`
within distance `contextLines` of `i`. -/
theorem mem_ctxIndices {n k i j : Nat} (hi : i < n) :
    j ∈ ctxIndices n k i ↔ j < n ∧ i ≤ j + k ∧ j ≤ i + k := by
  unfold ctxIndices
  simp only [Finset.mem_insert, Finset.mem_biUnion, Finset.mem_range, Finset.mem_union,
    mem_ite_singleton]
  constructor
  · rintro (rfl | ⟨t, ht, (⟨h1, rfl⟩ | ⟨h1, rfl⟩)⟩) <;> omega
  · rintro ⟨hjn, h1, h2⟩
    rcases Nat.lt_trichotomy j i with h | h | h
    · exact Or.inr ⟨i - j - 1, by omega, Or.inl ⟨by omega, by omega⟩⟩
    · exact Or.inl h
    · exact Or.inr ⟨j - i - 1, by omega, Or.inr ⟨by omega, by omega⟩⟩

/-- Membership in the folded union of context sets. -/
theorem mem_indicesWithContext {n k : Nat} {matched : List Nat} {j : Nat} :
    j ∈ indicesWithContext n k matched ↔ ∃ i ∈ matched, j ∈ ctxIndices n k i := by
  unfold indicesWithContext
  suffices h : ∀ acc : Finset ℕ,
      (j ∈ matched.foldl (fun s i => s ∪ ctxIndices n k i) acc ↔
        j ∈ acc ∨ ∃ i ∈ matched, j ∈ ctxIndices n k i) by
    simpa using h ∅
  induction matched with
  | nil => intro acc; simp
  | cons x xs ih =>
    intro acc
    rw [List.foldl_cons, ih]
    simp only [Finset.mem_union, List.mem_cons]
    constructor
    · rintro ((h | h) | ⟨i, hi, h⟩)
      · exact Or.inl h
      · exact Or.inr ⟨x, Or.inl rfl, h⟩
      · exact Or.inr ⟨i, Or.inr hi, h⟩
    · rintro (h | ⟨i, (rfl | hi), h⟩)
      · exact Or.inl (Or.inl h)
      · exact Or.inl (Or.inr h)
      · exact Or.inr ⟨i, hi, h⟩

/-- Matched indices are valid positions. -/
theorem matchedIndices_lt {segments : List Cue} {cs : Bool} {q : String} {i : Nat}
    (h : i ∈ matchedIndices segments cs q) : i < segments.length := by
  unfold matchedIndices at h
  rw [List.mem_filter] at h
  exact List.mem_range.1 h.1

/-- Sorting a finite set of indices below `n` enumerates it as the ascending
filter of `List.range n`. -/
theorem finsetSortRangeFilter (s : Finset ℕ) (n : Nat) (h : ∀ j ∈ s, j < n) :
    s.sort (· ≤ ·) = (List.range n).filter fun j => decide (j ∈ s) := by
  apply List.eq_of_perm_of_sorted _ (Finset.sort_sorted _ s)
    (((List.sorted_lt_range n).filter _).imp le_of_lt)
  apply (List.perm_ext_iff_of_nodup (Finset.sort_nodup _ s)
    ((List.nodup_range n).filter _)).mpr
  intro a
  simp only [Finset.mem_sort, List.mem_filter, List.mem_range, decide_eq_true_eq]
  exact ⟨fun ha => ⟨h a ha, ha⟩, fun ha => ha.2⟩

/-- C5, counterexample: the query `" "` is non-empty and matches no cue of
`[cueHello]`, yet `filterBySearchText` returns the ORIGINAL input (the
`query.trim() === ''` guard short-circuits), not the empty sequence. -/
theorem c5_search_counterexample :
    (∀ c ∈ [cueHello], cueMatches false " " c = false) ∧
      filterBySearchText [cueHello] wsSearch ≠ [] := by
  constructor
  · decide
  · decide

/-- C5 (amended): for every search whose query is non-blank (non-empty after
trimming), if no cue matches, `filterBySearchText` returns the empty
sequence, never the original input. -/
theorem c5_search_no_match_empty (segments : List Cue) (search : SearchOptions)
    (hq : jsTrim search.query ≠ "")
    (hnm : ∀ c ∈ segments,
      cueMatches (search.caseSensitive.getD false) search.query c = false) :
    filterBySearchText segments search = [] := by
  have hq0 : ¬(search.query = "" ∨ jsTrim search.query = "") := by
    rintro (h | h)
    · exact hq (by rw [h]; rfl)
    · exact hq h
  have hmat : matchedIndices segments (search.caseSensitive.getD false) search.query = [] := by
    apply List.filter_eq_nil_iff.2
    intro i hi
    rw [List.mem_range] at hi
    have hget : segments.getD i default ∈ segments := by
      rw [List.getD_eq_getElem segments default hi]
      exact List.getElem_mem hi
    rw [Bool.not_eq_true]
    exact hnm _ hget
  simp only [filterBySearchText, if_neg hq0, hmat, if_pos]

/-- Witness for `c5_search_no_match_empty` at a concrete input. -/
theorem c5_search_no_match_empty_witness :
    jsTrim "q" ≠ "" ∧ (∀ c ∈ [cueC], cueMatches false "q" c = false) ∧
      filterBySearchText [cueC] qSearch = [] :=
  ⟨by decide, by decide, c5_search_no_match_empty [cueC] qSearch (by decide) (by decide)⟩

/-- C6, counterexample: the claim as stated fails on BOTH cited
implementations. (1) Service `filterBySearchText`: the whitespace query
`" "` matches `cueAB` (whose text contains a space), so the claim predicts
output `[cueAB]` (context 0), but the `query.trim() === ''` guard returns
the whole input instead. (2) Handler inline search: with a SUPPLIED
`contextLines = 0`, `contextLines || 2` substitutes 2, so the single match
at index 1 of `cues4` returns all four cues where the claim's union of
`[i - 0, i + 0]` predicts only the matching cue. -/
theorem c6_search_counterexample :
    (filterBySearchText [cueAB, cueC] wsCtxSearch ≠
        searchUnionSpec [cueAB, cueC] wsCtxSearch) ∧
      inlineSearchCore cues4 zeroCtxSearch = cues4 ∧
      searchUnionSpec cues4 zeroCtxSearch = [cueM1] ∧
      inlineSearchCore cues4 zeroCtxSearch ≠ searchUnionSpec cues4 zeroCtxSearch := by
  refine ⟨by decide, by decide, by decide, by decide⟩

/-- C6 (amended): for the SERVICE implementation `filterBySearchText` — the
handler's inline search deviates, replacing a supplied `contextLines = 0` by
2 and deduplicating by offset, see the counterexample — every search whose
query is non-blank (non-empty after trimming) and matches at least one cue
returns exactly the cues whose indices lie in the union over match indices
`i` of the clamped ranges `[i - contextLines, i + contextLines]`, each
appearing once, in ascending index order (`searchUnionSpec` materialises
that description). -/
theorem c6_search_context_union (segments : List Cue) (search : SearchOptions)
    (hq : jsTrim search.query ≠ "")
    (hm : matchedIndices segments (search.caseSensitive.getD false) search.query ≠ []) :
    filterBySearchText segments search = searchUnionSpec segments search := by
  have hq0 : ¬(search.query = "" ∨ jsTrim search.query = "") := by
    rintro (h | h)
    · exact hq (by rw [h]; rfl)
    · exact hq h
  simp only [filterBySearchText, searchUnionSpec, if_neg hq0, if_neg hm]
  congr 1
  rw [finsetSortRangeFilter _ segments.length ?bound]
  case bound =>
    intro j hj
    rw [mem_indicesWithContext] at hj
    obtain ⟨i, hi, hji⟩ := hj
    exact ((mem_ctxIndices (matchedIndices_lt hi)).1 hji).1
  apply List.filter_congr
  intro j hj
  rw [List.mem_range] at hj
  have hiff : j ∈ indicesWithContext segments.length (search.contextLines.getD 0)
        (matchedIndices segments (search.caseSensitive.getD false) search.query) ↔
      ((matchedIndices segments (search.caseSensitive.getD false) search.query).any
        fun i => decide (i ≤ j + search.contextLines.getD 0 ∧
          j ≤ i + search.contextLines.getD 0)) = true := by
    rw [mem_indicesWithContext, List.any_eq_true]
    constructor
    · rintro ⟨i, hi, hji⟩
      have h3 := (mem_ctxIndices (matchedIndices_lt hi)).1 hji
      exact ⟨i, hi, decide_eq_true ⟨h3.2.1, h3.2.2⟩⟩
    · rintro ⟨i, hi, hp⟩
      have hp2 := of_decide_eq_true hp
      exact ⟨i, hi, (mem_ctxIndices (matchedIndices_lt hi)).2 ⟨hj, hp2.1, hp2.2⟩⟩
  rw [decide_eq_decide.2 hiff, Bool.decide_coe]

/-- Witness for `c6_search_context_union` at a concrete input. -/
theorem c6_search_context_union_witness :
    jsTrim "b" ≠ "" ∧ matchedIndices [cueAB, cueC] false "b" ≠ [] ∧
      filterBySearchText [cueAB, cueC] bSearch = searchUnionSpec [cueAB, cueC] bSearch :=
  ⟨by decide, by decide, c6_search_context_union [cueAB, cueC] bSearch (by decide) (by decide)⟩

/-- Flattening the `ceil`-sized chunks reproduces the original sequence. -/
theorem chunkList_flatten (size : Nat) (hs : 0 < size) :
    ∀ (l : List Cue), (chunkList size l).flatten = l
  | [] => by simp [chunkList]
  | x :: xs => by
    rw [chunkList, if_neg (Nat.pos_iff_ne_zero.1 hs)]
    rw [List.flatten_cons]
    rw [chunkList_flatten size hs ((x :: xs).drop size)]
    exact List.take_append_drop size (x :: xs)
termination_by l => l.length
decreasing_by
  simp only [List.length_drop, List.length_cons]
  omega

/-- C7: on the flat-sequence path, equal-method `segmentTranscript` is the
identity — the guard returns the input when `count ≤ 1` or
`count ≥ length`, and otherwise chunking into consecutive groups of
`ceil(n / count)` cues and flattening reproduces the input exactly. -/
theorem c7_equal_segmentation_identity (segments : List Cue) (count : Nat) :
    segmentTranscript segments { method := SegMethod.equal, count := count } = segments := by
  unfold segmentTranscript
  split
  · rfl
  next hguard =>
    have hg : ¬(count ≤ 1 ∨ segments.length ≤ count) := hguard
    push_neg at hg
    show (chunkList ((segments.length + count - 1) / count) segments).flatten = segments
    exact chunkList_flatten _ (Nat.div_pos (by omega) (by omega)) segments

/-- A character absent from the separator and from every joined string is
absent from the join. -/
theorem joinSep_no_char (sep : String) (l : List String) (c : Char)
    (hsep : c ∉ sep.data) (h : ∀ s ∈ l, c ∉ s.data) : c ∉ (joinSep sep l).data := by
  induction l with
  | nil =>
    intro hc
    simp only [joinSep] at hc
    exact absurd hc (List.not_mem_nil c)
  | cons x xs ih =>
    cases xs with
    | nil =>
      intro hc
      simp only [joinSep] at hc
      exact h x (by simp) hc
    | cons y ys =>
      intro hc
      simp only [joinSep] at hc
      rw [String.data_append, String.data_append] at hc
      rcases List.mem_append.1 hc with hc1 | hc2
      · rcases List.mem_append.1 hc1 with hc3 | hc4
        · exact h x (by simp) hc3
        · exact hsep hc4
      · exact ih (fun s hs => h s (List.mem_cons_of_mem x hs)) hc2

/-- C8: with format `merged`, `formatTranscript` renders exactly the cue
texts, in order, joined by single spaces; and when no cue text contains the
timestamp-marker bracket, neither does the rendered text (the formatter
inserts no timestamp markers). -/
theorem c8_merged_format (segments : List Cue) (videoDetails : List (Option VideoMetadata))
    (options : TranscriptOptions) (hf : options.format = some Fmt.merged) :
    (formatTranscript segments videoDetails options).text =
        some (joinSep " " (segments.map Cue.text)) ∧
      ((∀ s ∈ segments, ('[') ∉ s.text.data) →
        ('[') ∉ (joinSep " " (segments.map Cue.text)).data) := by
  constructor
  · simp [formatTranscript, hf]
  · intro h
    apply joinSep_no_char
    · decide
    · intro s hs
      obtain ⟨cue, hcue, rfl⟩ := List.mem_map.1 hs
      exact h cue hcue

/-- Witness for `c8_merged_format` at a concrete input. -/
theorem c8_merged_format_witness :
    optsMerged.format = some Fmt.merged ∧
      (formatTranscript [cueHello, cueC] [] optsMerged).text =
        some (joinSep " " ([cueHello, cueC].map Cue.text)) :=
  ⟨rfl, (c8_merged_format [cueHello, cueC] [] optsMerged rfl).1⟩

/-- C3: the handler's multi-video loop returns exactly one entry per input
ID, in caller order; every entry is the per-video function of that video's
own external outcomes (so one video's failure cannot abort or alter the
others); a missing video and a missing transcript produce distinct populated
`error` fields, thrown fetch errors are caught per video, and a found video
with a nonempty transcript produces an entry with no error. -/
theorem c3_multi_video_isolation (ids : List String) (env : VideoEnv) (a : HandlerArgs) :
    (processVideos ids env a).length = ids.length ∧
      (∀ i : Nat, (processVideos ids env a)[i]? =
        (ids[i]?).map fun id => (processOneVideo env a id).1) ∧
      (∀ id, env.details id = Except.ok none →
        ((processOneVideo env a id).1).error = some "Video not found or not accessible") ∧
      (∀ id e, env.details id = Except.error e →
        ((processOneVideo env a id).1).error = some ("Error processing video: " ++ e)) ∧
      (∀ id v, env.details id = Except.ok (some v) → env.transcript id = Except.ok [] →
        ((processOneVideo env a id).1).error = some (noTranscriptMsg a.language)) ∧
      (∀ id v e, env.details id = Except.ok (some v) → env.transcript id = Except.error e →
        ((processOneVideo env a id).1).error = some ("Error processing video: " ++ e)) ∧
      (∀ id v cues, env.details id = Except.ok (some v) → env.transcript id = Except.ok cues →
        cues ≠ [] → ((processOneVideo env a id).1).error = none) ∧
      (∀ (env2 : VideoEnv) id, env.details id = env2.details id →
        env.transcript id = env2.transcript id →
        processOneVideo env a id = processOneVideo env2 a id) := by
  refine ⟨List.length_map ids _, fun i => List.getElem?_map _ ids i, ?_, ?_, ?_, ?_, ?_, ?_⟩
  · intro id hd
    unfold processOneVideo processOneVideoCore
    rw [hd]
  · intro id e hd
    unfold processOneVideo processOneVideoCore
    rw [hd]
  · intro id v hd ht
    unfold processOneVideo processOneVideoCore
    rw [hd, ht]
  · intro id v e hd ht
    unfold processOneVideo processOneVideoCore
    rw [hd, ht]
  · intro id v cues hd ht hne
    unfold processOneVideo processOneVideoCore
    rw [hd, ht]
    cases cues with
    | nil => exact absurd rfl hne
    | cons c cs => rfl
  · intro env2 id hd ht
    unfold processOneVideo
    rw [hd, ht]

/-- Witness for `c3_multi_video_isolation` at a concrete input: two IDs, the
second of which has no video item. -/
theorem c3_multi_video_isolation_witness :
    (processVideos ["a", "b"] envW argsW).length = 2 ∧
      ((processOneVideo envW argsW "b").1).error = some "Video not found or not accessible" :=
  ⟨(c3_multi_video_isolation ["a", "b"] envW argsW).1,
    (c3_multi_video_isolation ["a", "b"] envW argsW).2.2.1 "b" rfl⟩

/-- C4: from an uncached state, a `getTranscript` call fetches once and
stores the RAW unfiltered cue sequence under the `(videoId,
language-or-default)` key, returning the filters applied to the raw cues; a
second call for the same video and language (any other options) hits the
cache, issues NO external fetch, and re-runs its filters against the cached
raw cues — so two calls within the TTL window issue exactly one fetch. -/
theorem c4_cache_raw_single_fetch (fetch : String → Option String → Option (List Cue))
    (st : CacheState) (vid : String) (o1 o2 : TranscriptOptions) (raw : List Cue)
    (hlang : o1.language = o2.language)
    (hfetch : fetch vid o1.language = some raw)
    (hmiss : cacheGet st (generateTranscriptCacheKey vid o1) = none) :
    getTranscript fetch st vid o1 =
        (Except.ok (processTranscript raw o1),
          cacheSet st (generateTranscriptCacheKey vid o1) raw, 1) ∧
      cacheGet (cacheSet st (generateTranscriptCacheKey vid o1) raw)
          (generateTranscriptCacheKey vid o2) = some raw ∧
      getTranscript fetch (cacheSet st (generateTranscriptCacheKey vid o1) raw) vid o2 =
        (Except.ok (processTranscript raw o2),
          cacheSet st (generateTranscriptCacheKey vid o1) raw, 0) := by
  have hkey : generateTranscriptCacheKey vid o2 = generateTranscriptCacheKey vid o1 := by
    unfold generateTranscriptCacheKey
    rw [hlang]
  have hhit : cacheGet (cacheSet st (generateTranscriptCacheKey vid o1) raw)
      (generateTranscriptCacheKey vid o1) = some raw := by
    unfold cacheGet cacheSet
    simp
  refine ⟨?_, ?_, ?_⟩
  · simp only [getTranscript]
    rw [hmiss, hfetch]
  · rw [hkey]
    exact hhit
  · simp only [getTranscript]
    rw [hkey, hhit]

/-- Witness for `c4_cache_raw_single_fetch` at a concrete input. -/
theorem c4_cache_raw_single_fetch_witness :
    optsEn.language = optsEn2.language ∧ fetchW "vid" optsEn.language = some [cueX] ∧
      cacheGet stEmpty (generateTranscriptCacheKey "vid" optsEn) = none ∧
      getTranscript fetchW stEmpty "vid" optsEn =
        (Except.ok (processTranscript [cueX] optsEn),
          cacheSet stEmpty (generateTranscriptCacheKey "vid" optsEn) [cueX], 1) :=
  ⟨rfl, rfl, rfl,
    (c4_cache_raw_single_fetch fetchW stEmpty "vid" optsEn optsEn2 [cueX] rfl rfl rfl).1⟩

/-- Projection helper for concrete evaluations. -/
theorem mkCue_offset (o : ℚ) : (mkCue o).offset = o := rfl

/-- Projection helper for concrete evaluations. -/
theorem mkCue_duration (o : ℚ) : (mkCue o).duration = 100 := rfl

/-- The handler's smart segmentation of `cues9` with `count = 2`: the walk
closes `[c0..c6]` at the first 2000 ms gap, closes `[c7]` at the second, and
then `break`s, discarding the final cue (offset 5400). -/
theorem inlineSmartChunks_cues9 :
    inlineSmartChunks cues9 2 =
      [[mkCue 0, mkCue 200, mkCue 400, mkCue 600, mkCue 800, mkCue 1000, mkCue 1200],
        [mkCue 3300]] := by
  have havg : avgGap [mkCue 0, mkCue 200, mkCue 400, mkCue 600, mkCue 800, mkCue 1000,
      mkCue 1200, mkCue 3300, mkCue 5400] = 575 := by
    norm_num [avgGap, mkCue]
  simp only [cues9]
  norm_num [inlineSmartChunks, smartLoop, havg, mkCue_offset, mkCue_duration, max_def,
    List.cons_ne_nil]

/-- C2, code-bug evidence at a concrete input: on `cues9` with `count = 2`
the handler's smart segmentation emits 2 segments holding only 8 of the 9
cues — the cue at offset 5400 is dropped by the `break` after the second
segment close — while the service's `segmentTranscript` on the same input
keeps every cue (its loop stops pushing after `count - 1` groups so the
final group absorbs the rest). -/
theorem c2_smart_segmentation_drops_cue :
    cues9.length = 9 ∧
      (inlineSmartChunks cues9 2).length = 2 ∧
      ((inlineSmartChunks cues9 2).map List.length).sum = 8 ∧
      mkCue 5400 ∈ cues9 ∧
      (∀ g ∈ inlineSmartChunks cues9 2, mkCue 5400 ∉ g) ∧
      segmentTranscript cues9 { method := SegMethod.smart, count := 2 } = cues9 := by
  have hsvc : segmentTranscript cues9 { method := SegMethod.smart, count := 2 } = cues9 := by
    have h1 : (smartChunks cues9 2).flatten = cues9 := by
      have htot : List.foldl (fun sum segment => sum + segment.duration) 0
          [mkCue 0, mkCue 200, mkCue 400, mkCue 600, mkCue 800, mkCue 1000, mkCue 1200,
            mkCue 3300, mkCue 5400] = 900 := by
        norm_num [mkCue]
      simp only [cues9]
      norm_num [smartChunks, smartStep, htot, mkCue_duration, List.cons_ne_nil]
    show (if (2 : Nat) ≤ 1 ∨ cues9.length ≤ 2 then cues9
      else (smartChunks cues9 2).flatten) = cues9
    rw [if_neg (by norm_num [cues9])]
    exact h1
  refine ⟨rfl, ?_, ?_, ?_, ?_, hsvc⟩
  · rw [inlineSmartChunks_cues9]
    rfl
  · rw [inlineSmartChunks_cues9]
    rfl
  · decide
  · rw [inlineSmartChunks_cues9]
    decide

/-- C9, counterexample: the request `reqBad` carries a time range with
`start = 10 > end = 5` — malformed in the claim's sense — yet the schema
accepts it and the handler issues two external calls (one metadata fetch,
one transcript fetch); nothing rejects it before I/O. -/
theorem c9_validation_counterexample :
    validateEnhancedRequest reqBad = true ∧
      (∃ f t, reqBad.filters = some f ∧ f.timeRange = some t ∧
        t.start = some 10 ∧ t.endTime = some 5 ∧ (10 : ℚ) > 5) ∧
      (enhancedTranscriptRun reqBad envW).2 = 2 := by
  refine ⟨by decide, ⟨_, _, rfl, rfl, rfl, rfl, by norm_num⟩, by decide⟩

/-- C9 (amended): a request whose search filter has an EMPTY query is
rejected by the zod schema before the handler body runs: the run returns the
validation error and issues zero external calls. (A `start > end` time
range, by contrast, is not rejected — see the counterexample.) -/
theorem c9_empty_query_rejected (r : EnhancedRequest) (env : VideoEnv)
    (f : HFilters) (s : SearchOptions)
    (hf : r.filters = some f) (hs : f.search = some s) (hq : s.query = "") :
    enhancedTranscriptRun r env = (Except.error "Invalid request parameters", 0) := by
  have hlen : s.query.length = 0 := by rw [hq]; rfl
  have hv : validateEnhancedRequest r = false := by
    simp [validateEnhancedRequest, hf, hs, hlen]
  unfold enhancedTranscriptRun
  rw [hv]
  simp

/-- Witness for `c9_empty_query_rejected` at a concrete input. -/
theorem c9_empty_query_rejected_witness :
    reqEmptyQ.filters = some
        { timeRange := none,
          search := some { query := "", caseSensitive := none, contextLines := none },
          segment := none } ∧
      enhancedTranscriptRun reqEmptyQ envW = (Except.error "Invalid request parameters", 0) :=
  ⟨rfl, c9_empty_query_rejected reqEmptyQ envW _ _ rfl rfl rfl⟩
